import Mathlib

/-!
# Print job lifecycle coordinator: model and verification

The repository ships only the declaration header
`chrome/browser/printing/print_view_manager_base.h`; the implementation
file with the method bodies is not part of the source tree.  The state
machine below is therefore modelled from the specification (spec.md)
of the Coordinator, following the header's member declarations
(`print_job_`, `number_pages_`, `printing_succeeded_`,
`inside_inner_message_loop_`, `expecting_first_page_`, `cookie_`,
`printing_enabled_`) and its method contracts.

Observable behavior is captured as a list of `Action`s emitted by each
transition: job creation and release, the completion callback
(`PrintingDone`), and the start and release of the synchronous
"render all missing pages" wait.
-/

namespace Printing

/-- Modelled from the spec: the tri-state outcome accumulator `succeeded`
(spec section 3), finalized at most once per job instance.  The header
declares `printing_succeeded_`; the spec refines it to a tri-state. -/
inductive Outcome where
  | unknown
  | success
  | failure
  deriving DecidableEq, Repr

/-- Observable actions emitted by the Coordinator.  `jobCreated` /
`jobReleased` mark the live interval of a print-job instance;
`printingDone` is the completion callback (`PrintingDone(bool)`, invoked
through the stored `callback`); `waitStarted` / `waiterReleased` delimit
the synchronous wait of `RenderAllMissingPagesNow` (the inner message
loop entry and quit); `printRequested` is the fire-and-forget render
request of `PrintNow`; `invalidSettingsShown` is the user-visible
invalid-printer-settings error. -/
inductive Action where
  | jobCreated (j : Nat)
  | jobReleased (j : Nat)
  | printingDone (j : Nat) (success : Bool)
  | waitStarted
  | waiterReleased
  | printRequested
  | invalidSettingsShown
  deriving DecidableEq, Repr

/-- Modelled from the spec: the Coordinator state of
`PrintViewManagerBase`, whose implementation file is absent from the
repository.  Fields follow spec section 3 and the header's members:
`activeJob` is `print_job_` (at most one, identified here by an instance
id), `documentCookie` is `cookie_`, `expectedPageCount` is
`number_pages_` (`-1` until the producer reports it), `succeeded` is
`printing_succeeded_`, `waitingForPages` is `inside_inner_message_loop_`,
`firstPageExpected` is `expecting_first_page_`, `printingEnabled` is
`printing_enabled_`.  `renderedPages` is the rendered-page tally and
`nextJobId` a freshness counter for job instance ids. -/
structure Coordinator where
  activeJob : Option Nat
  documentCookie : Int
  expectedPageCount : Int
  renderedPages : Nat
  succeeded : Outcome
  waitingForPages : Bool
  firstPageExpected : Bool
  printingEnabled : Bool
  nextJobId : Nat
  deriving DecidableEq, Repr

/-- The initial (idle) Coordinator, as set up by the constructor. -/
def initCoordinator (enabled : Bool) : Coordinator :=
  { activeJob := none
    documentCookie := 0
    expectedPageCount := -1
    renderedPages := 0
    succeeded := Outcome.unknown
    waitingForPages := false
    firstPageExpected := false
    printingEnabled := enabled
    nextJobId := 0 }

/-- The document is complete: the expected page count has been reported
and every expected page has been rendered.  (`-1`, the unknown sentinel,
never equals a tally cast from `Nat`.) -/
def documentDone (c : Coordinator) : Bool :=
  decide (c.expectedPageCount = (c.renderedPages : Int))

/-- Modelled from the spec: `ReleasePrintJob` (header lines 119-121,
spec section 4.5).  No-op if no job exists.  Otherwise it deregisters
from the job's notifications (emitting `jobReleased`), clears
`documentCookie` and `activeJob`, clears `waitingForPages` if set
(releasing the pending waiter), and finalizes the outcome accumulator —
firing the completion callback exactly once per job instance — with the
success bit `ok` supplied by the terminal path. -/
def ReleasePrintJob (c : Coordinator) (ok : Bool) : Coordinator × List Action :=
  match c.activeJob with
  | none => (c, [])
  | some j =>
      ({ c with
          activeJob := none
          documentCookie := 0
          waitingForPages := false
          succeeded :=
            if c.succeeded = Outcome.unknown then
              (if ok then Outcome.success else Outcome.failure)
            else c.succeeded },
        (if c.succeeded = Outcome.unknown then [Action.printingDone j ok] else [])
          ++ (if c.waitingForPages then [Action.waiterReleased] else [])
          ++ [Action.jobReleased j])

/-- Modelled from the spec: `TerminatePrintJob` (header lines 114-117,
spec section 4.5).  No-op if no print job has been created.  If `cancel`
is true the job is aborted immediately and the outcome forced to
failure; otherwise the job is let finish and the outcome is success
exactly when the document completed.  Always calls `ReleasePrintJob`. -/
def TerminatePrintJob (c : Coordinator) (cancel : Bool) : Coordinator × List Action :=
  match c.activeJob with
  | none => (c, [])
  | some _ =>
      if cancel then ReleasePrintJob c false
      else ReleasePrintJob c (documentDone c)

/-- Modelled from the spec: `CreateNewPrintJob` (header lines 101-105,
spec section 4.1).  Rejected when printing is disabled.  If a job is
currently active it is first safely disconnected and released
(`DisconnectFromCurrentPrintJob`), then the new empty job is created
with all per-job state reset. -/
def CreateNewPrintJob (c : Coordinator) : Bool × Coordinator × List Action :=
  if c.printingEnabled then
    let r := ReleasePrintJob c (documentDone c)
    let j := r.1.nextJobId
    (true,
      { r.1 with
          activeJob := some j
          documentCookie := 0
          expectedPageCount := -1
          renderedPages := 0
          succeeded := Outcome.unknown
          firstPageExpected := true
          nextJobId := j + 1 },
      r.2 ++ [Action.jobCreated j])
  else (false, c, [])

/-- Modelled from the spec: `OnDidGetDocumentCookie` (header line 82,
spec section 4.2).  Records the document cookie of the active job;
ignored when no job is pending. -/
def OnDidGetDocumentCookie (c : Coordinator) (cookie : Int) :
    Coordinator × List Action :=
  match c.activeJob with
  | none => (c, [])
  | some _ => ({ c with documentCookie := cookie }, [])

/-- Modelled from the spec: `OnDidGetPrintedPagesCount` (header line 81,
spec section 4.2).  Ignored unless the cookie matches `documentCookie`;
sets `expectedPageCount`; when the count is zero the empty document
immediately proceeds to completion as a success. -/
def OnDidGetPrintedPagesCount (c : Coordinator) (cookie : Int) (count : Int) :
    Coordinator × List Action :=
  match c.activeJob with
  | none => (c, [])
  | some _ =>
      if cookie = c.documentCookie then
        let c1 := { c with expectedPageCount := count }
        if count = 0 then ReleasePrintJob c1 true else (c1, [])
      else (c, [])

/-- Modelled from the spec: `OnDidPrintPage` (header line 83, spec
section 4.2).  A message with a stale cookie is discarded with no state
change.  Otherwise the first occurrence clears `firstPageExpected`, the
tally is incremented, and when all expected pages are accounted for the
job completes successfully (releasing any pending waiter). -/
def OnDidPrintPage (c : Coordinator) (cookie : Int) : Coordinator × List Action :=
  match c.activeJob with
  | none => (c, [])
  | some _ =>
      if cookie = c.documentCookie then
        let c1 := { c with
          renderedPages := c.renderedPages + 1
          firstPageExpected := false }
        if documentDone c1 then ReleasePrintJob c1 true else (c1, [])
      else (c, [])

/-- Modelled from the spec: `RenderProcessGone` (header lines 61-62,
spec section 4.4).  The producer died mid-job: the job, if any, is
terminated with cancel, forcing a failure outcome and force-releasing
any outstanding synchronous wait. -/
def RenderProcessGone (c : Coordinator) : Coordinator × List Action :=
  TerminatePrintJob c true

/-- Modelled from the spec: `NavigationStopped` (header lines 77-78,
spec section 4.4).  Navigation away cancels the active print job. -/
def NavigationStopped (c : Coordinator) : Coordinator × List Action :=
  TerminatePrintJob c true

/-- Modelled from the spec: `OnShowInvalidPrinterSettingsError` (header
line 84, spec section 4.2).  Surfaces a user-visible error and tears the
job down as a failure. -/
def OnShowInvalidPrinterSettingsError (c : Coordinator) :
    Coordinator × List Action :=
  let r := TerminatePrintJob c true
  (r.1, Action.invalidSettingsShown :: r.2)

/-- Modelled from the spec: `RenderAllMissingPagesNow` (header lines
89-92, spec section 4.3).  No-op returning false if no job is pending or
a wait is already outstanding (re-entrant calls are rejected) or nothing
is missing; otherwise it requests the missing pages, enters the inner
message loop (`waitingForPages` set) and returns true. -/
def RenderAllMissingPagesNow (c : Coordinator) : Bool × Coordinator × List Action :=
  match c.activeJob with
  | none => (false, c, [])
  | some _ =>
      if c.waitingForPages then (false, c, [])
      else if documentDone c then (false, c, [])
      else (true, { c with waitingForPages := true }, [Action.waitStarted])

/-- Modelled from the spec: `PrintNow` (header lines 43-46, spec
sections 4.1 and 6).  Rejects immediately — returning false with no job
created and no state change — when printing is disabled by policy or the
rendering surface is not ready; otherwise issues the fire-and-forget
render request. -/
def PrintNow (c : Coordinator) (surfaceReady : Bool) :
    Bool × Coordinator × List Action :=
  if c.printingEnabled && surfaceReady then (true, c, [Action.printRequested])
  else (false, c, [])

/-- Inbound events driving the Coordinator: the caller's entry points,
the producer's progress messages, the job/queue notifications and the
surface lifecycle signals. -/
inductive Event where
  | printNow (surfaceReady : Bool)
  | createJob
  | docCookieReported (cookie : Int)
  | pageCountReported (cookie : Int) (count : Int)
  | pageRendered (cookie : Int)
  | invalidPrinterSettings
  | rendererTerminated
  | navigatedAway
  | renderMissingPagesNow
  | terminateJob (cancel : Bool)
  deriving DecidableEq, Repr

/-- One dispatch step of the Coordinator: routes an event to its
handler, returning the new state and the emitted observable actions. -/
def step (c : Coordinator) : Event → Coordinator × List Action
  | Event.printNow ready => ((PrintNow c ready).2.1, (PrintNow c ready).2.2)
  | Event.createJob => ((CreateNewPrintJob c).2.1, (CreateNewPrintJob c).2.2)
  | Event.docCookieReported k => OnDidGetDocumentCookie c k
  | Event.pageCountReported k n => OnDidGetPrintedPagesCount c k n
  | Event.pageRendered k => OnDidPrintPage c k
  | Event.invalidPrinterSettings => OnShowInvalidPrinterSettingsError c
  | Event.rendererTerminated => RenderProcessGone c
  | Event.navigatedAway => NavigationStopped c
  | Event.renderMissingPagesNow =>
      ((RenderAllMissingPagesNow c).2.1, (RenderAllMissingPagesNow c).2.2)
  | Event.terminateJob b => TerminatePrintJob c b

/-- Runs the Coordinator over a list of events, concatenating the
emitted actions into one observable trace. -/
def run (c : Coordinator) : List Event → Coordinator × List Action
  | [] => (c, [])
  | e :: es =>
      ((run (step c e).1 es).1, (step c e).2 ++ (run (step c e).1 es).2)

/-- Effect of one action on the set (as a list) of live job instances:
`jobCreated` adds, `jobReleased` removes, everything else is neutral. -/
def liveStep (s : List Nat) : Action → List Nat
  | Action.jobCreated j => s ++ [j]
  | Action.jobReleased j => s.erase j
  | _ => s

/-- The live jobs after a list of actions, starting from `s`. -/
def liveFrom (s : List Nat) (acts : List Action) : List Nat :=
  acts.foldl liveStep s

/-- Checks that after every action of the trace at most one job is
live, starting from live set `s`. -/
def okFrom (s : List Nat) : List Action → Bool
  | [] => true
  | a :: rest =>
      decide ((liveStep s a).length ≤ 1) && okFrom (liveStep s a) rest

/-- The live jobs of the Coordinator state, as a list: the active job
or nothing. -/
def liveList (c : Coordinator) : List Nat :=
  match c.activeJob with
  | none => []
  | some j => [j]

/-- Whether an action is the completion callback of job `j`. -/
def isDoneFor (j : Nat) : Action → Bool
  | Action.printingDone i _ => i == j
  | _ => false

/-- How many times the completion callback fired for job `j` in a
trace. -/
def doneFor (j : Nat) (acts : List Action) : Nat :=
  acts.countP (isDoneFor j)

/-- Whether an action is the release of job `j`. -/
def isRelFor (j : Nat) : Action → Bool
  | Action.jobReleased i => i == j
  | _ => false

/-- How many times job `j` was released in a trace. -/
def relFor (j : Nat) (acts : List Action) : Nat :=
  acts.countP (isRelFor j)

/-- Whether an action starts a synchronous wait. -/
def isStart : Action → Bool
  | Action.waitStarted => true
  | _ => false

/-- Number of synchronous waits started in a trace. -/
def startsFor (acts : List Action) : Nat :=
  acts.countP isStart

/-- Whether an action releases a synchronous waiter. -/
def isWRel : Action → Bool
  | Action.waiterReleased => true
  | _ => false

/-- Number of synchronous-wait releases in a trace. -/
def wrelFor (acts : List Action) : Nat :=
  acts.countP isWRel

/-- Trace invariant for the exactly-once completion callback: callback
and release counters are zero for ids not yet allocated, every job is
completed and released at most once, a released job was completed
exactly once, and the active job — always an allocated id with a still
unfinalized outcome — has fired neither. -/
def InvB (c : Coordinator) (acts : List Action) : Prop :=
  (∀ j, c.nextJobId ≤ j → doneFor j acts = 0 ∧ relFor j acts = 0) ∧
    (∀ j, doneFor j acts ≤ 1) ∧
    (∀ j, relFor j acts ≤ 1) ∧
    (∀ j, 1 ≤ relFor j acts → doneFor j acts = 1) ∧
    (∀ j, c.activeJob = some j →
      j < c.nextJobId ∧ doneFor j acts = 0 ∧ relFor j acts = 0 ∧
        c.succeeded = Outcome.unknown)

/-- Trace invariant for the synchronous-wait accounting: the waiting
flag implies an active job, and the number of wait starts equals the
number of waiter releases plus one for a still-outstanding wait. -/
def InvC (c : Coordinator) (acts : List Action) : Prop :=
  (c.waitingForPages = true → c.activeJob ≠ none) ∧
    startsFor acts = wrelFor acts + (if c.waitingForPages then 1 else 0)

/-- A concrete Coordinator state: job 0 active under cookie 7, three
pages expected, two rendered, a synchronous wait outstanding. -/
def sampleWaiting : Coordinator :=
  { activeJob := some 0
    documentCookie := 7
    expectedPageCount := 3
    renderedPages := 2
    succeeded := Outcome.unknown
    waitingForPages := true
    firstPageExpected := false
    printingEnabled := true
    nextJobId := 1 }

/-- C4: a pageRendered message whose cookie differs from the current
documentCookie changes no observable state: the Coordinator state is
returned unchanged (no success change, no tally change, no expected
count change) and no action — in particular no waiter release — is
emitted. -/
theorem staleCookiePageIsNoop (c : Coordinator) (k : Int)
    (h : k ≠ c.documentCookie) :
    OnDidPrintPage c k = (c, []) := by
  cases haj : c.activeJob <;> simp [OnDidPrintPage, haj, h]

theorem staleCookiePageIsNoopWitness :
    (5 : Int) ≠ sampleWaiting.documentCookie ∧
      OnDidPrintPage sampleWaiting 5 = (sampleWaiting, []) :=
  ⟨by decide, staleCookiePageIsNoop sampleWaiting 5 (by decide)⟩

/-- C9: terminating when no print job exists is a no-op for either
value of the cancel flag: no completion callback fires, no action is
emitted, and the Coordinator state is unchanged. -/
theorem terminateIdleIsNoop (c : Coordinator) (cancel : Bool)
    (h : c.activeJob = none) :
    TerminatePrintJob c cancel = (c, []) := by
  simp [TerminatePrintJob, h]

theorem terminateIdleIsNoopWitness :
    TerminatePrintJob (initCoordinator true) true = (initCoordinator true, []) ∧
      TerminatePrintJob (initCoordinator true) false = (initCoordinator true, []) :=
  ⟨terminateIdleIsNoop (initCoordinator true) true rfl,
    terminateIdleIsNoop (initCoordinator true) false rfl⟩

/-- C10: terminating while a job is active always releases it, for
either value of the cancel flag: the job handle is cleared (idle), the
document cookie is cleared, and the release (deregistration) action for
that job is emitted. -/
theorem terminateReleasesJob (c : Coordinator) (j : Nat) (cancel : Bool)
    (h : c.activeJob = some j) :
    ((TerminatePrintJob c cancel).1).activeJob = none ∧
      ((TerminatePrintJob c cancel).1).documentCookie = 0 ∧
      Action.jobReleased j ∈ (TerminatePrintJob c cancel).2 := by
  cases cancel <;> simp [TerminatePrintJob, ReleasePrintJob, h]

theorem terminateReleasesJobWitness :
    ((TerminatePrintJob sampleWaiting true).1).activeJob = none ∧
      Action.jobReleased 0 ∈ (TerminatePrintJob sampleWaiting false).2 :=
  ⟨(terminateReleasesJob sampleWaiting 0 true rfl).1,
    (terminateReleasesJob sampleWaiting 0 false rfl).2.2⟩

/-- C6: when the renderer process dies while a job is active (outcome
still unfinalized), the job is cancelled: the completion callback fires
with failure, the job is released, the Coordinator ends idle with the
outcome forced to failure, and an outstanding synchronous wait is
force-released. -/
theorem rendererGoneCancelsJob (c : Coordinator) (j : Nat)
    (hj : c.activeJob = some j) (hs : c.succeeded = Outcome.unknown) :
    Action.printingDone j false ∈ (RenderProcessGone c).2 ∧
      Action.jobReleased j ∈ (RenderProcessGone c).2 ∧
      ((RenderProcessGone c).1).activeJob = none ∧
      ((RenderProcessGone c).1).succeeded = Outcome.failure ∧
      (c.waitingForPages = true →
        Action.waiterReleased ∈ (RenderProcessGone c).2) := by
  simp [RenderProcessGone, TerminatePrintJob, ReleasePrintJob, hj, hs]

theorem rendererGoneCancelsJobWitness :
    Action.printingDone 0 false ∈ (RenderProcessGone sampleWaiting).2 ∧
      Action.waiterReleased ∈ (RenderProcessGone sampleWaiting).2 :=
  ⟨(rendererGoneCancelsJob sampleWaiting 0 rfl rfl).1,
    (rendererGoneCancelsJob sampleWaiting 0 rfl rfl).2.2.2.2 rfl⟩

/-- C7: a pageCountReported message carrying the active cookie and a
count of zero completes the job immediately as a success: the
completion callback fires with true, the Coordinator ends idle with
outcome success, and the rendered-page tally is untouched (no page was
ever rendered for it). -/
theorem zeroPageCountSucceeds (c : Coordinator) (j : Nat) (k : Int)
    (hj : c.activeJob = some j) (hk : k = c.documentCookie)
    (hs : c.succeeded = Outcome.unknown) :
    Action.printingDone j true ∈ (OnDidGetPrintedPagesCount c k 0).2 ∧
      ((OnDidGetPrintedPagesCount c k 0).1).activeJob = none ∧
      ((OnDidGetPrintedPagesCount c k 0).1).succeeded = Outcome.success ∧
      ((OnDidGetPrintedPagesCount c k 0).1).renderedPages = c.renderedPages := by
  simp [OnDidGetPrintedPagesCount, ReleasePrintJob, hj, hk, hs]

theorem zeroPageCountSucceedsWitness :
    Action.printingDone 0 true ∈ (OnDidGetPrintedPagesCount sampleWaiting 7 0).2 ∧
      ((OnDidGetPrintedPagesCount sampleWaiting 7 0).1).succeeded = Outcome.success :=
  ⟨(zeroPageCountSucceeds sampleWaiting 0 7 rfl rfl rfl).1,
    (zeroPageCountSucceeds sampleWaiting 0 7 rfl rfl rfl).2.2.1⟩

/-- C8: printNow rejects immediately when printing is disabled by
policy or the rendering surface is not ready: it returns false, emits
no action (so no job is created), and leaves the Coordinator state
unchanged. -/
theorem printNowRejectsWhenDisabled (c : Coordinator) (ready : Bool)
    (h : c.printingEnabled = false ∨ ready = false) :
    PrintNow c ready = (false, c, []) := by
  rcases h with h | h <;> simp [PrintNow, h]

theorem printNowRejectsWhenDisabledWitness :
    PrintNow (initCoordinator false) true = (false, initCoordinator false, []) ∧
      PrintNow sampleWaiting false = (false, sampleWaiting, []) :=
  ⟨printNowRejectsWhenDisabled (initCoordinator false) true (Or.inl rfl),
    printNowRejectsWhenDisabled sampleWaiting false (Or.inr rfl)⟩

/-- C3: while a synchronous wait is outstanding, each of the four
terminating events releases the waiter (the inner message loop exits):
a pageRendered with the active cookie that accounts for the last
expected page, a pageCountReported of zero with the active cookie
(document complete), renderer process termination, and navigation
away. -/
theorem waitReleasedOnTerminalEvents (c : Coordinator) (j : Nat)
    (hj : c.activeJob = some j) (hw : c.waitingForPages = true) :
    (∀ k, k = c.documentCookie →
        c.expectedPageCount = (c.renderedPages : Int) + 1 →
        Action.waiterReleased ∈ (OnDidPrintPage c k).2) ∧
      (∀ k, k = c.documentCookie →
        Action.waiterReleased ∈ (OnDidGetPrintedPagesCount c k 0).2) ∧
      Action.waiterReleased ∈ (RenderProcessGone c).2 ∧
      Action.waiterReleased ∈ (NavigationStopped c).2 := by
  refine ⟨fun k hk hpc => ?_, fun k hk => ?_, ?_, ?_⟩
  · simp [OnDidPrintPage, documentDone, ReleasePrintJob, hj, hk, hpc, hw]
  · simp [OnDidGetPrintedPagesCount, ReleasePrintJob, hj, hk, hw]
  · simp [RenderProcessGone, TerminatePrintJob, ReleasePrintJob, hj, hw]
  · simp [NavigationStopped, TerminatePrintJob, ReleasePrintJob, hj, hw]

theorem waitReleasedOnTerminalEventsWitness :
    Action.waiterReleased ∈ (OnDidPrintPage sampleWaiting 7).2 ∧
      Action.waiterReleased ∈ (NavigationStopped sampleWaiting).2 :=
  ⟨(waitReleasedOnTerminalEvents sampleWaiting 0 rfl rfl).1 7 rfl (by decide),
    (waitReleasedOnTerminalEvents sampleWaiting 0 rfl rfl).2.2.2⟩

theorem liveFrom_nil (s : List Nat) : liveFrom s [] = s := rfl

theorem liveFrom_cons (s : List Nat) (a : Action) (l : List Action) :
    liveFrom s (a :: l) = liveFrom (liveStep s a) l := rfl

theorem liveFrom_append (s : List Nat) (a b : List Action) :
    liveFrom s (a ++ b) = liveFrom (liveFrom s a) b := by
  simp [liveFrom, List.foldl_append]

theorem okFrom_cons (s : List Nat) (a : Action) (l : List Action) :
    okFrom s (a :: l) =
      (decide ((liveStep s a).length ≤ 1) && okFrom (liveStep s a) l) := rfl

theorem okFrom_append (s : List Nat) (a b : List Action) :
    okFrom s (a ++ b) = (okFrom s a && okFrom (liveFrom s a) b) := by
  induction a generalizing s with
  | nil => simp [okFrom, liveFrom]
  | cons x xs ih =>
      simp only [List.cons_append, okFrom_cons, liveFrom_cons, ih, Bool.and_assoc]

theorem liveList_length (c : Coordinator) : (liveList c).length ≤ 1 := by
  cases haj : c.activeJob <;> simp [liveList, haj]

theorem release_idle (c : Coordinator) (ok : Bool) :
    ((ReleasePrintJob c ok).1).activeJob = none := by
  cases haj : c.activeJob <;> simp [ReleasePrintJob, haj]

theorem release_live (c : Coordinator) (ok : Bool) :
    liveFrom (liveList c) (ReleasePrintJob c ok).2 =
        liveList (ReleasePrintJob c ok).1 ∧
      okFrom (liveList c) (ReleasePrintJob c ok).2 = true := by
  cases haj : c.activeJob with
  | none => simp [ReleasePrintJob, haj, liveFrom, okFrom]
  | some j =>
      by_cases hsu : c.succeeded = Outcome.unknown <;>
        cases hw : c.waitingForPages <;>
          simp [ReleasePrintJob, haj, hsu, hw, liveList, liveFrom, liveStep, okFrom]

theorem terminate_live (c : Coordinator) (b : Bool) :
    liveFrom (liveList c) (TerminatePrintJob c b).2 =
        liveList (TerminatePrintJob c b).1 ∧
      okFrom (liveList c) (TerminatePrintJob c b).2 = true := by
  cases haj : c.activeJob with
  | none => simp [TerminatePrintJob, haj, liveFrom, okFrom]
  | some j =>
      cases b with
      | true => simpa [TerminatePrintJob, haj] using release_live c false
      | false => simpa [TerminatePrintJob, haj] using release_live c (documentDone c)

theorem step_live (c : Coordinator) (e : Event) :
    liveFrom (liveList c) (step c e).2 = liveList (step c e).1 ∧
      okFrom (liveList c) (step c e).2 = true := by
  cases e with
  | printNow ready =>
      by_cases hpr : (c.printingEnabled && ready) = true <;>
        simp [step, PrintNow, hpr, liveFrom, liveStep, okFrom, liveList_length c]
  | createJob =>
      by_cases hpe : c.printingEnabled = true
      · have hr := release_live c (documentDone c)
        have hi := release_idle c (documentDone c)
        constructor
        · simp only [step, CreateNewPrintJob, hpe, if_true]
          rw [liveFrom_append, hr.1]
          simp [liveList, hi, liveFrom, liveStep]
        · simp only [step, CreateNewPrintJob, hpe, if_true]
          rw [okFrom_append, hr.2, hr.1]
          simp [liveList, hi, okFrom, liveStep]
      · simp [step, CreateNewPrintJob, hpe, liveFrom, okFrom]
  | docCookieReported k =>
      cases haj : c.activeJob <;>
        simp [step, OnDidGetDocumentCookie, haj, liveFrom, okFrom, liveList]
  | pageCountReported k n =>
      cases haj : c.activeJob with
      | none => simp [step, OnDidGetPrintedPagesCount, haj, liveFrom, okFrom]
      | some j =>
          by_cases hk : k = c.documentCookie
          · by_cases hn : n = 0
            · have hr := release_live { c with expectedPageCount := n } true
              simpa [step, OnDidGetPrintedPagesCount, haj, hk, hn, liveList] using hr
            · simp [step, OnDidGetPrintedPagesCount, haj, hk, hn, liveFrom, okFrom,
                liveList]
          · simp [step, OnDidGetPrintedPagesCount, haj, hk, liveFrom, okFrom, liveList]
  | pageRendered k =>
      cases haj : c.activeJob with
      | none => simp [step, OnDidPrintPage, haj, liveFrom, okFrom]
      | some j =>
          by_cases hk : k = c.documentCookie
          · by_cases hd : c.expectedPageCount = (c.renderedPages : Int) + 1
            · have hr := release_live { c with
                renderedPages := c.renderedPages + 1
                firstPageExpected := false } true
              simpa [step, OnDidPrintPage, haj, hk, documentDone, hd, liveList] using hr
            · simp [step, OnDidPrintPage, haj, hk, documentDone, hd, liveFrom, okFrom,
                liveList]
          · simp [step, OnDidPrintPage, haj, hk, liveFrom, okFrom, liveList]
  | invalidPrinterSettings =>
      have ht := terminate_live c true
      constructor
      · simp only [step, OnShowInvalidPrinterSettingsError, liveFrom_cons]
        simpa [liveStep] using ht.1
      · simp only [step, OnShowInvalidPrinterSettingsError, okFrom_cons]
        simp [liveStep, ht.2, liveList_length c]
  | rendererTerminated => simpa [step, RenderProcessGone] using terminate_live c true
  | navigatedAway => simpa [step, NavigationStopped] using terminate_live c true
  | renderMissingPagesNow =>
      cases haj : c.activeJob with
      | none => simp [step, RenderAllMissingPagesNow, haj, liveFrom, okFrom]
      | some j =>
          by_cases hw : c.waitingForPages = true
          · simp [step, RenderAllMissingPagesNow, haj, hw, liveFrom, okFrom, liveList]
          · by_cases hd : documentDone c = true <;>
              simp [step, RenderAllMissingPagesNow, haj, hw, hd, liveFrom, liveStep,
                okFrom, liveList]
  | terminateJob b => exact terminate_live c b

theorem run_live (evts : List Event) (c : Coordinator) :
    liveFrom (liveList c) (run c evts).2 = liveList (run c evts).1 ∧
      okFrom (liveList c) (run c evts).2 = true := by
  induction evts generalizing c with
  | nil => simp [run, liveFrom, okFrom]
  | cons e es ih =>
      constructor
      · show liveFrom (liveList c) ((step c e).2 ++ (run (step c e).1 es).2) = _
        rw [liveFrom_append, (step_live c e).1, (ih (step c e).1).1]
        rfl
      · show okFrom (liveList c) ((step c e).2 ++ (run (step c e).1 es).2) = true
        rw [okFrom_append, (step_live c e).2, (step_live c e).1,
          (ih (step c e).1).2, Bool.true_and]

theorem okFrom_length (p : List Action) :
    ∀ (q : List Action) (s : List Nat), s.length ≤ 1 →
      okFrom s (p ++ q) = true → (liveFrom s p).length ≤ 1 := by
  induction p with
  | nil => intro q s hs _; simpa [liveFrom] using hs
  | cons a p1 ih =>
      intro q s _ hok
      rw [List.cons_append, okFrom_cons, Bool.and_eq_true, decide_eq_true_eq] at hok
      rw [liveFrom_cons]
      exact ih q (liveStep s a) hok.1 hok.2

/-- C1: the Coordinator holds at most one live print job at every
observable point of every event sequence: after any prefix of the
emitted action trace, the set of created-but-not-released jobs has at
most one element — so a second job is only ever created after the
prior job has been fully released. -/
theorem atMostOneActiveJob (enabled : Bool) (evts : List Event)
    (p q : List Action)
    (h : (run (initCoordinator enabled) evts).2 = p ++ q) :
    (liveFrom [] p).length ≤ 1 := by
  have hr := (run_live evts (initCoordinator enabled)).2
  rw [show liveList (initCoordinator enabled) = [] from rfl, h] at hr
  exact okFrom_length p q [] (by simp) hr

theorem atMostOneActiveJobWitness :
    (run (initCoordinator true) [Event.createJob, Event.createJob]).2 =
        [Action.jobCreated 0, Action.printingDone 0 false, Action.jobReleased 0] ++
          [Action.jobCreated 1] ∧
      (liveFrom []
          [Action.jobCreated 0, Action.printingDone 0 false,
            Action.jobReleased 0]).length ≤ 1 :=
  ⟨by decide,
    atMostOneActiveJob true [Event.createJob, Event.createJob]
      [Action.jobCreated 0, Action.printingDone 0 false, Action.jobReleased 0]
      [Action.jobCreated 1] (by decide)⟩

theorem doneFor_append (j : Nat) (a b : List Action) :
    doneFor j (a ++ b) = doneFor j a + doneFor j b := by
  simp [doneFor, List.countP_append]

theorem relFor_append (j : Nat) (a b : List Action) :
    relFor j (a ++ b) = relFor j a + relFor j b := by
  simp [relFor, List.countP_append]

theorem invB_ext {c : Coordinator} {acts : List Action} (h : InvB c acts)
    (c2 : Coordinator) (extra : List Action)
    (hn : c2.nextJobId = c.nextJobId) (ha : c2.activeJob = c.activeJob)
    (hs : c2.succeeded = c.succeeded)
    (hz : ∀ i, doneFor i extra = 0 ∧ relFor i extra = 0) :
    InvB c2 (acts ++ extra) := by
  obtain ⟨h1, h2, h3, h4, h5⟩ := h
  refine ⟨?_, ?_, ?_, ?_, ?_⟩
  · intro i hi
    rw [hn] at hi
    have hone := h1 i hi
    simp [doneFor_append, relFor_append, hone.1, hone.2, (hz i).1, (hz i).2]
  · intro i
    rw [doneFor_append, (hz i).1]
    simpa using h2 i
  · intro i
    rw [relFor_append, (hz i).2]
    simpa using h3 i
  · intro i hrel
    rw [relFor_append, (hz i).2, Nat.add_zero] at hrel
    rw [doneFor_append, (hz i).1, Nat.add_zero]
    exact h4 i hrel
  · intro i hi
    rw [ha] at hi
    obtain ⟨a1, a2, a3, a4⟩ := h5 i hi
    refine ⟨by rw [hn]; exact a1, ?_, ?_, by rw [hs]; exact a4⟩
    · rw [doneFor_append, (hz i).1, Nat.add_zero]; exact a2
    · rw [relFor_append, (hz i).2, Nat.add_zero]; exact a3

theorem invB_state {c : Coordinator} {acts : List Action} (h : InvB c acts)
    (c2 : Coordinator)
    (hn : c2.nextJobId = c.nextJobId) (ha : c2.activeJob = c.activeJob)
    (hs : c2.succeeded = c.succeeded) : InvB c2 acts := by
  simpa using invB_ext h c2 [] hn ha hs (by simp [doneFor, relFor])

theorem invB_of_counts {c : Coordinator} {A B : List Action} (h : InvB c A)
    (he : ∀ i, doneFor i B = doneFor i A ∧ relFor i B = relFor i A) :
    InvB c B := by
  obtain ⟨h1, h2, h3, h4, h5⟩ := h
  refine ⟨?_, ?_, ?_, ?_, ?_⟩
  · intro i hi
    rw [(he i).1, (he i).2]
    exact h1 i hi
  · intro i; rw [(he i).1]; exact h2 i
  · intro i; rw [(he i).2]; exact h3 i
  · intro i hrel
    rw [(he i).2] at hrel
    rw [(he i).1]
    exact h4 i hrel
  · intro i hi
    obtain ⟨a1, a2, a3, a4⟩ := h5 i hi
    exact ⟨a1, by rw [(he i).1]; exact a2, by rw [(he i).2]; exact a3, a4⟩

theorem release_next (c : Coordinator) (ok : Bool) :
    ((ReleasePrintJob c ok).1).nextJobId = c.nextJobId := by
  cases haj : c.activeJob <;> simp [ReleasePrintJob, haj]

theorem release_counts (c : Coordinator) (ok : Bool) (j : Nat)
    (haj : c.activeJob = some j) (hsu : c.succeeded = Outcome.unknown) (i : Nat) :
    doneFor i (ReleasePrintJob c ok).2 = (if i = j then 1 else 0) ∧
      relFor i (ReleasePrintJob c ok).2 = (if i = j then 1 else 0) := by
  by_cases hij : i = j
  · cases hw : c.waitingForPages <;>
      simp [ReleasePrintJob, haj, hsu, hw, doneFor, relFor, isDoneFor, isRelFor, hij]
  · have hji : ¬j = i := fun hh => hij hh.symm
    cases hw : c.waitingForPages <;>
      simp [ReleasePrintJob, haj, hsu, hw, doneFor, relFor, isDoneFor, isRelFor, hij,
        hji]

theorem invB_release {c : Coordinator} {acts : List Action} (h : InvB c acts)
    (j : Nat) (haj : c.activeJob = some j) (ok : Bool) :
    InvB (ReleasePrintJob c ok).1 (acts ++ (ReleasePrintJob c ok).2) := by
  obtain ⟨h1, h2, h3, h4, h5⟩ := h
  obtain ⟨hlt, hd0, hr0, hsu⟩ := h5 j haj
  have hc := release_counts c ok j haj hsu
  refine ⟨?_, ?_, ?_, ?_, ?_⟩
  · intro i hi
    rw [release_next] at hi
    have hne : ¬(i = j) := by omega
    have hone := h1 i hi
    simp [doneFor_append, relFor_append, hone.1, hone.2, (hc i).1, (hc i).2, hne]
  · intro i
    by_cases hij : i = j
    · subst hij
      rw [doneFor_append, hd0, (hc i).1]
      simp
    · rw [doneFor_append, (hc i).1, if_neg hij, Nat.add_zero]
      exact h2 i
  · intro i
    by_cases hij : i = j
    · subst hij
      rw [relFor_append, hr0, (hc i).2]
      simp
    · rw [relFor_append, (hc i).2, if_neg hij, Nat.add_zero]
      exact h3 i
  · intro i hrel
    by_cases hij : i = j
    · subst hij
      rw [doneFor_append, hd0, (hc i).1]
      simp
    · rw [relFor_append, (hc i).2, if_neg hij, Nat.add_zero] at hrel
      rw [doneFor_append, (hc i).1, if_neg hij, Nat.add_zero]
      exact h4 i hrel
  · intro i hi
    rw [release_idle] at hi
    simp at hi

theorem invB_releaseAny {c : Coordinator} {acts : List Action} (h : InvB c acts)
    (ok : Bool) :
    InvB (ReleasePrintJob c ok).1 (acts ++ (ReleasePrintJob c ok).2) := by
  cases haj : c.activeJob with
  | none => simpa [ReleasePrintJob, haj] using h
  | some j => exact invB_release h j haj ok

theorem invB_terminate {c : Coordinator} {acts : List Action} (h : InvB c acts)
    (b : Bool) :
    InvB (TerminatePrintJob c b).1 (acts ++ (TerminatePrintJob c b).2) := by
  cases haj : c.activeJob with
  | none => simpa [TerminatePrintJob, haj] using h
  | some j =>
      cases b with
      | true => simpa [TerminatePrintJob, haj] using invB_release h j haj false
      | false =>
          simpa [TerminatePrintJob, haj] using invB_release h j haj (documentDone c)

theorem invB_create {c : Coordinator} {acts : List Action} (h : InvB c acts) :
    InvB (CreateNewPrintJob c).2.1 (acts ++ (CreateNewPrintJob c).2.2) := by
  by_cases hpe : c.printingEnabled = true
  · have hrel := invB_releaseAny h (documentDone c)
    obtain ⟨g1, g2, g3, g4, g5⟩ := hrel
    have hrn := release_next c (documentDone c)
    simp only [CreateNewPrintJob, hpe, if_true]
    rw [show acts ++ ((ReleasePrintJob c (documentDone c)).2 ++
        [Action.jobCreated (ReleasePrintJob c (documentDone c)).1.nextJobId]) =
        (acts ++ (ReleasePrintJob c (documentDone c)).2) ++
        [Action.jobCreated (ReleasePrintJob c (documentDone c)).1.nextJobId] from
      (List.append_assoc _ _ _).symm]
    have hz : ∀ i,
        doneFor i [Action.jobCreated (ReleasePrintJob c (documentDone c)).1.nextJobId] = 0 ∧
        relFor i [Action.jobCreated (ReleasePrintJob c (documentDone c)).1.nextJobId] = 0 := by
      intro i
      simp [doneFor, relFor, isDoneFor, isRelFor]
    refine ⟨?_, ?_, ?_, ?_, ?_⟩
    · intro i hi
      simp only at hi
      have hone := g1 i (by omega)
      constructor
      · rw [doneFor_append, hone.1, (hz i).1]
      · rw [relFor_append, hone.2, (hz i).2]
    · intro i
      rw [doneFor_append, (hz i).1, Nat.add_zero]
      exact g2 i
    · intro i
      rw [relFor_append, (hz i).2, Nat.add_zero]
      exact g3 i
    · intro i hrel
      rw [relFor_append, (hz i).2, Nat.add_zero] at hrel
      rw [doneFor_append, (hz i).1, Nat.add_zero]
      exact g4 i hrel
    · intro i hi
      simp only [Option.some.injEq] at hi
      subst hi
      have hone := g1 _ (Nat.le_refl _)
      refine ⟨Nat.lt_succ_self _, ?_, ?_, rfl⟩
      · rw [doneFor_append, (hz _).1, Nat.add_zero]; exact hone.1
      · rw [relFor_append, (hz _).2, Nat.add_zero]; exact hone.2
  · simpa [CreateNewPrintJob, hpe] using h

theorem invB_step {c : Coordinator} {acts : List Action} (h : InvB c acts)
    (e : Event) : InvB (step c e).1 (acts ++ (step c e).2) := by
  cases e with
  | printNow ready =>
      by_cases hpr : (c.printingEnabled && ready) = true <;>
        · simp only [step, PrintNow, hpr, if_true, if_false, Bool.false_eq_true]
          first
          | exact invB_ext h c [Action.printRequested] rfl rfl rfl
              (by intro i; simp [doneFor, relFor, isDoneFor, isRelFor])
          | exact invB_ext h c [] rfl rfl rfl (by intro i; simp [doneFor, relFor])
  | createJob => simpa [step] using invB_create h
  | docCookieReported k =>
      cases haj : c.activeJob with
      | none =>
          simp only [step, OnDidGetDocumentCookie, haj]
          exact invB_ext h c [] rfl rfl rfl (by intro i; simp [doneFor, relFor])
      | some j =>
          simp only [step, OnDidGetDocumentCookie, haj]
          exact invB_ext h { c with activeJob := some j, documentCookie := k } []
            rfl haj.symm rfl (by intro i; simp [doneFor, relFor])
  | pageCountReported k n =>
      cases haj : c.activeJob with
      | none =>
          simp only [step, OnDidGetPrintedPagesCount, haj]
          exact invB_ext h c [] rfl rfl rfl (by intro i; simp [doneFor, relFor])
      | some j =>
          by_cases hk : k = c.documentCookie
          · by_cases hn : n = 0
            · have h1 : InvB { c with expectedPageCount := n } acts :=
                invB_state h _ rfl rfl rfl
              simpa [step, OnDidGetPrintedPagesCount, haj, hk, hn] using
                invB_release h1 j haj true
            · simp only [step, OnDidGetPrintedPagesCount, haj, hk, if_pos, if_neg hn,
                if_true]
              exact invB_ext h { c with activeJob := some j, expectedPageCount := n }
                [] rfl haj.symm rfl (by intro i; simp [doneFor, relFor])
          · simp only [step, OnDidGetPrintedPagesCount, haj, hk, if_neg, if_false]
            exact invB_ext h c [] rfl rfl rfl (by intro i; simp [doneFor, relFor])
  | pageRendered k =>
      cases haj : c.activeJob with
      | none =>
          simp only [step, OnDidPrintPage, haj]
          exact invB_ext h c [] rfl rfl rfl (by intro i; simp [doneFor, relFor])
      | some j =>
          by_cases hk : k = c.documentCookie
          · by_cases hd : c.expectedPageCount = (c.renderedPages : Int) + 1
            · have h1 : InvB { c with
                  renderedPages := c.renderedPages + 1
                  firstPageExpected := false } acts :=
                invB_state h _ rfl rfl rfl
              simpa [step, OnDidPrintPage, haj, hk, documentDone, hd] using
                invB_release h1 j haj true
            · simp only [step, OnDidPrintPage, haj, hk, if_pos, if_true]
              rw [if_neg (by simp [documentDone, hd])]
              exact invB_ext h { c with
                  activeJob := some j
                  renderedPages := c.renderedPages + 1
                  firstPageExpected := false } [] rfl haj.symm rfl
                (by intro i; simp [doneFor, relFor])
          · simp only [step, OnDidPrintPage, haj, hk, if_neg, if_false]
            exact invB_ext h c [] rfl rfl rfl (by intro i; simp [doneFor, relFor])
  | invalidPrinterSettings =>
      have ht := invB_terminate h true
      apply invB_of_counts (A := acts ++ (TerminatePrintJob c true).2) ht
      intro i
      simp [step, OnShowInvalidPrinterSettingsError, doneFor_append, relFor_append,
        doneFor, relFor, isDoneFor, isRelFor, List.countP_cons]
  | rendererTerminated => simpa [step, RenderProcessGone] using invB_terminate h true
  | navigatedAway => simpa [step, NavigationStopped] using invB_terminate h true
  | renderMissingPagesNow =>
      cases haj : c.activeJob with
      | none =>
          simp only [step, RenderAllMissingPagesNow, haj]
          exact invB_ext h c [] rfl rfl rfl (by intro i; simp [doneFor, relFor])
      | some j =>
          by_cases hw : c.waitingForPages = true
          · simp only [step, RenderAllMissingPagesNow, haj, hw, if_true]
            exact invB_ext h c [] rfl rfl rfl (by intro i; simp [doneFor, relFor])
          · by_cases hd : documentDone c = true
            · simp only [step, RenderAllMissingPagesNow, haj, hw, hd, if_true,
                if_false, Bool.false_eq_true]
              exact invB_ext h c [] rfl rfl rfl (by intro i; simp [doneFor, relFor])
            · simp only [step, RenderAllMissingPagesNow, haj, hw, hd, if_false,
                Bool.false_eq_true]
              exact invB_ext h { c with activeJob := some j, waitingForPages := true }
                [Action.waitStarted] rfl haj.symm rfl
                (by intro i; simp [doneFor, relFor, isDoneFor, isRelFor])
  | terminateJob b => exact invB_terminate h b

theorem invB_run (evts : List Event) :
    ∀ {c : Coordinator} {acts : List Action}, InvB c acts →
      InvB (run c evts).1 (acts ++ (run c evts).2) := by
  induction evts with
  | nil => intro c acts h; simpa [run] using h
  | cons e es ih =>
      intro c acts h
      have h2 := ih (invB_step h e)
      simpa [run, List.append_assoc] using h2

theorem invB_init (enabled : Bool) : InvB (initCoordinator enabled) [] := by
  refine ⟨?_, ?_, ?_, ?_, ?_⟩ <;> simp [doneFor, relFor, initCoordinator]

/-- C2: the completion callback fires at most once per job instance in
every trace, and exactly once for every job instance that reaches a
terminal path (is released) — never zero times and never twice,
whatever the terminal cause. -/
theorem printingDoneExactlyOnce (enabled : Bool) (evts : List Event) (j : Nat) :
    doneFor j (run (initCoordinator enabled) evts).2 ≤ 1 ∧
      (Action.jobReleased j ∈ (run (initCoordinator enabled) evts).2 →
        doneFor j (run (initCoordinator enabled) evts).2 = 1) := by
  have h := invB_run evts (invB_init enabled)
  rw [List.nil_append] at h
  obtain ⟨h1, h2, h3, h4, h5⟩ := h
  refine ⟨h2 j, fun hmem => ?_⟩
  apply h4 j
  have hpos : 0 < relFor j (run (initCoordinator enabled) evts).2 := by
    apply List.countP_pos_iff.mpr
    exact ⟨Action.jobReleased j, hmem, by simp [isRelFor]⟩
  omega

theorem printingDoneExactlyOnceWitness :
    Action.jobReleased 0 ∈
        (run (initCoordinator true)
          [Event.createJob, Event.docCookieReported 7,
            Event.pageCountReported 7 0]).2 ∧
      doneFor 0
          (run (initCoordinator true)
            [Event.createJob, Event.docCookieReported 7,
              Event.pageCountReported 7 0]).2 = 1 :=
  ⟨by decide,
    (printingDoneExactlyOnce true
        [Event.createJob, Event.docCookieReported 7,
          Event.pageCountReported 7 0] 0).2 (by decide)⟩

theorem startsFor_append (a b : List Action) :
    startsFor (a ++ b) = startsFor a + startsFor b := by
  simp [startsFor, List.countP_append]

theorem wrelFor_append (a b : List Action) :
    wrelFor (a ++ b) = wrelFor a + wrelFor b := by
  simp [wrelFor, List.countP_append]

theorem release_wcounts (c : Coordinator) (ok : Bool) (j : Nat)
    (haj : c.activeJob = some j) :
    startsFor (ReleasePrintJob c ok).2 = 0 ∧
      wrelFor (ReleasePrintJob c ok).2 = (if c.waitingForPages then 1 else 0) := by
  by_cases hsu : c.succeeded = Outcome.unknown <;>
    cases hw : c.waitingForPages <;>
      simp [ReleasePrintJob, haj, hsu, hw, startsFor, wrelFor, isStart, isWRel]

theorem release_flag (c : Coordinator) (ok : Bool) (j : Nat)
    (haj : c.activeJob = some j) :
    ((ReleasePrintJob c ok).1).waitingForPages = false := by
  simp [ReleasePrintJob, haj]

theorem invC_ext {c : Coordinator} {acts : List Action} (h : InvC c acts)
    (c2 : Coordinator) (extra : List Action)
    (ha : c2.activeJob = c.activeJob)
    (hw : c2.waitingForPages = c.waitingForPages)
    (hz : startsFor extra = 0 ∧ wrelFor extra = 0) :
    InvC c2 (acts ++ extra) := by
  obtain ⟨h1, h2⟩ := h
  refine ⟨?_, ?_⟩
  · intro hflag
    rw [hw] at hflag
    rw [ha]
    exact h1 hflag
  · rw [startsFor_append, wrelFor_append, hz.1, hz.2, Nat.add_zero, Nat.add_zero, hw]
    exact h2

theorem invC_releaseAny {c : Coordinator} {acts : List Action} (h : InvC c acts)
    (ok : Bool) :
    InvC (ReleasePrintJob c ok).1 (acts ++ (ReleasePrintJob c ok).2) := by
  cases haj : c.activeJob with
  | none => simpa [ReleasePrintJob, haj] using h
  | some j =>
      obtain ⟨h1, h2⟩ := h
      have wc := release_wcounts c ok j haj
      have hf := release_flag c ok j haj
      refine ⟨?_, ?_⟩
      · intro hflag
        rw [hf] at hflag
        exact absurd hflag (by simp)
      · rw [startsFor_append, wrelFor_append, wc.1, wc.2, hf, h2]
        simp

theorem invC_terminate {c : Coordinator} {acts : List Action} (h : InvC c acts)
    (b : Bool) :
    InvC (TerminatePrintJob c b).1 (acts ++ (TerminatePrintJob c b).2) := by
  cases haj : c.activeJob with
  | none => simpa [TerminatePrintJob, haj] using h
  | some j =>
      cases b with
      | true => simpa [TerminatePrintJob, haj] using invC_releaseAny h false
      | false =>
          simpa [TerminatePrintJob, haj] using invC_releaseAny h (documentDone c)

theorem invC_of_counts {c : Coordinator} {A B : List Action} (h : InvC c A)
    (he : startsFor B = startsFor A ∧ wrelFor B = wrelFor A) : InvC c B := by
  obtain ⟨h1, h2⟩ := h
  exact ⟨h1, by rw [he.1, he.2]; exact h2⟩

theorem invC_create {c : Coordinator} {acts : List Action} (h : InvC c acts) :
    InvC (CreateNewPrintJob c).2.1 (acts ++ (CreateNewPrintJob c).2.2) := by
  by_cases hpe : c.printingEnabled = true
  · have hrel := invC_releaseAny h (documentDone c)
    have hff : ((ReleasePrintJob c (documentDone c)).1).waitingForPages = false := by
      cases hflag : ((ReleasePrintJob c (documentDone c)).1).waitingForPages with
      | false => rfl
      | true => exact absurd (release_idle c (documentDone c)) (hrel.1 hflag)
    simp only [CreateNewPrintJob, hpe, if_true]
    rw [show acts ++ ((ReleasePrintJob c (documentDone c)).2 ++
        [Action.jobCreated (ReleasePrintJob c (documentDone c)).1.nextJobId]) =
        (acts ++ (ReleasePrintJob c (documentDone c)).2) ++
        [Action.jobCreated (ReleasePrintJob c (documentDone c)).1.nextJobId] from
      (List.append_assoc _ _ _).symm]
    refine ⟨fun hflag => by simp, ?_⟩
    rw [startsFor_append, wrelFor_append]
    have hs0 : startsFor
        [Action.jobCreated (ReleasePrintJob c (documentDone c)).1.nextJobId] = 0 := by
      simp [startsFor, isStart]
    have hw0 : wrelFor
        [Action.jobCreated (ReleasePrintJob c (documentDone c)).1.nextJobId] = 0 := by
      simp [wrelFor, isWRel]
    rw [hs0, hw0, Nat.add_zero, Nat.add_zero]
    have h2 := hrel.2
    rw [hff] at h2
    simpa [hff] using h2
  · simpa [CreateNewPrintJob, hpe] using h

theorem invC_step {c : Coordinator} {acts : List Action} (h : InvC c acts)
    (e : Event) : InvC (step c e).1 (acts ++ (step c e).2) := by
  cases e with
  | printNow ready =>
      by_cases hpr : (c.printingEnabled && ready) = true <;>
        · simp only [step, PrintNow, hpr, if_true, if_false, Bool.false_eq_true]
          first
          | exact invC_ext h c [Action.printRequested] rfl rfl
              (by simp [startsFor, wrelFor, isStart, isWRel])
          | exact invC_ext h c [] rfl rfl (by simp [startsFor, wrelFor])
  | createJob => simpa [step] using invC_create h
  | docCookieReported k =>
      cases haj : c.activeJob with
      | none =>
          simp only [step, OnDidGetDocumentCookie, haj]
          exact invC_ext h c [] rfl rfl (by simp [startsFor, wrelFor])
      | some j =>
          simp only [step, OnDidGetDocumentCookie, haj]
          exact invC_ext h { c with activeJob := some j, documentCookie := k } []
            haj.symm rfl (by simp [startsFor, wrelFor])
  | pageCountReported k n =>
      cases haj : c.activeJob with
      | none =>
          simp only [step, OnDidGetPrintedPagesCount, haj]
          exact invC_ext h c [] rfl rfl (by simp [startsFor, wrelFor])
      | some j =>
          by_cases hk : k = c.documentCookie
          · by_cases hn : n = 0
            · have h1 : InvC { c with expectedPageCount := n } acts := h
              simpa [step, OnDidGetPrintedPagesCount, haj, hk, hn] using
                invC_releaseAny h1 true
            · simp only [step, OnDidGetPrintedPagesCount, haj, hk, if_pos,
                if_neg hn, if_true]
              exact invC_ext h { c with activeJob := some j, expectedPageCount := n }
                [] haj.symm rfl (by simp [startsFor, wrelFor])
          · simp only [step, OnDidGetPrintedPagesCount, haj, hk, if_neg, if_false]
            exact invC_ext h c [] rfl rfl (by simp [startsFor, wrelFor])
  | pageRendered k =>
      cases haj : c.activeJob with
      | none =>
          simp only [step, OnDidPrintPage, haj]
          exact invC_ext h c [] rfl rfl (by simp [startsFor, wrelFor])
      | some j =>
          by_cases hk : k = c.documentCookie
          · by_cases hd : c.expectedPageCount = (c.renderedPages : Int) + 1
            · have h1 : InvC { c with
                  renderedPages := c.renderedPages + 1
                  firstPageExpected := false } acts := h
              simpa [step, OnDidPrintPage, haj, hk, documentDone, hd] using
                invC_releaseAny h1 true
            · simp only [step, OnDidPrintPage, haj, hk, if_pos, if_true]
              rw [if_neg (by simp [documentDone, hd])]
              exact invC_ext h { c with
                  activeJob := some j
                  renderedPages := c.renderedPages + 1
                  firstPageExpected := false } [] haj.symm rfl
                (by simp [startsFor, wrelFor])
          · simp only [step, OnDidPrintPage, haj, hk, if_neg, if_false]
            exact invC_ext h c [] rfl rfl (by simp [startsFor, wrelFor])
  | invalidPrinterSettings =>
      have ht := invC_terminate h true
      apply invC_of_counts (A := acts ++ (TerminatePrintJob c true).2) ht
      constructor <;>
        simp [step, OnShowInvalidPrinterSettingsError, startsFor_append,
          wrelFor_append, startsFor, wrelFor, isStart, isWRel, List.countP_cons]
  | rendererTerminated => simpa [step, RenderProcessGone] using invC_terminate h true
  | navigatedAway => simpa [step, NavigationStopped] using invC_terminate h true
  | renderMissingPagesNow =>
      cases haj : c.activeJob with
      | none =>
          simp only [step, RenderAllMissingPagesNow, haj]
          exact invC_ext h c [] rfl rfl (by simp [startsFor, wrelFor])
      | some j =>
          by_cases hw : c.waitingForPages = true
          · simp only [step, RenderAllMissingPagesNow, haj, hw, if_true]
            exact invC_ext h c [] rfl rfl (by simp [startsFor, wrelFor])
          · by_cases hd : documentDone c = true
            · simp only [step, RenderAllMissingPagesNow, haj, hw, hd, if_true,
                if_false, Bool.false_eq_true]
              exact invC_ext h c [] rfl rfl (by simp [startsFor, wrelFor])
            · have hwf : c.waitingForPages = false := by
                cases hb : c.waitingForPages
                · rfl
                · exact absurd hb hw
              obtain ⟨h1, h2⟩ := h
              have h2x : startsFor acts = wrelFor acts := by simpa [hwf] using h2
              simp only [step, RenderAllMissingPagesNow, haj, hw, hd, if_false,
                Bool.false_eq_true]
              refine ⟨fun _ => by simp, ?_⟩
              simp [startsFor_append, wrelFor_append, startsFor, wrelFor, isStart,
                isWRel]
              exact h2x
  | terminateJob b => exact invC_terminate h b

theorem invC_run (evts : List Event) :
    ∀ {c : Coordinator} {acts : List Action}, InvC c acts →
      InvC (run c evts).1 (acts ++ (run c evts).2) := by
  induction evts with
  | nil => intro c acts h; simpa [run] using h
  | cons e es ih =>
      intro c acts h
      have h2 := ih (invC_step h e)
      simpa [run, List.append_assoc] using h2

theorem invC_init (enabled : Bool) : InvC (initCoordinator enabled) [] := by
  refine ⟨fun hflag => ?_, ?_⟩
  · exact absurd hflag (by simp [initCoordinator])
  · simp [startsFor, wrelFor, initCoordinator]

/-- C5: the waiting flag is cleared on every exit path — every release
of an active job resets it — and the synchronous wait is released
exactly once per invocation: over any trace, the number of wait starts
equals the number of waiter releases plus one exactly when a wait is
still outstanding, so no stale flag survives to deadlock a later
wait. -/
theorem waitFlagClearedAndAccounted (enabled : Bool) (evts : List Event) :
    (∀ (d : Coordinator) (j : Nat) (ok : Bool), d.activeJob = some j →
        ((ReleasePrintJob d ok).1).waitingForPages = false) ∧
      startsFor (run (initCoordinator enabled) evts).2 =
        wrelFor (run (initCoordinator enabled) evts).2 +
          (if (run (initCoordinator enabled) evts).1.waitingForPages then 1
            else 0) := by
  constructor
  · intro d j ok hd
    exact release_flag d ok j hd
  · have h := invC_run evts (invC_init enabled)
    rw [List.nil_append] at h
    exact h.2

theorem waitFlagClearedAndAccountedWitness :
    ((ReleasePrintJob sampleWaiting true).1).waitingForPages = false ∧
      startsFor
          (run (initCoordinator true)
            [Event.createJob, Event.renderMissingPagesNow,
              Event.rendererTerminated]).2 =
        wrelFor
            (run (initCoordinator true)
              [Event.createJob, Event.renderMissingPagesNow,
                Event.rendererTerminated]).2 +
          (if (run (initCoordinator true)
                [Event.createJob, Event.renderMissingPagesNow,
                  Event.rendererTerminated]).1.waitingForPages then 1
            else 0) :=
  ⟨(waitFlagClearedAndAccounted true []).1 sampleWaiting 0 true rfl,
    (waitFlagClearedAndAccounted true
        [Event.createJob, Event.renderMissingPagesNow,
          Event.rendererTerminated]).2⟩

end Printing
